import Mathlib

/-!
Verification development for the county auction scraping pipeline
(`auction_scraper.py`).  The Python source is shallowly embedded: pure
functions become Lean functions over `String`/`List Char`; the network,
the HTML parser, the PDF library and the filesystem are external
collaborators and are represented by explicit oracle data passed to the
embedded pipeline (`FetchOutcome`, `ScrapeEnv`).  The regular-expression
searches of the source are embedded by a small executable backtracking
matcher (`matchToks`/`searchFrom`) restricted to the constructs the
source's patterns actually use: case-insensitive literals, greedy
bounded/unbounded character classes, alternations of literals, and word
boundaries.  Character classes (`\s`, `\w`, `\d`) are modelled on their
Python meaning; `\w` uses the ASCII alphanumerics, which agrees with
Python on all ASCII text (every keyword and pattern in the source is
ASCII).
-/

/-- Python `str.lower()` restricted to ASCII case mapping. -/
def lowerChar (c : Char) : Char := c.toLower

/-- Lowercase every character of a string (Python `s.lower()`). -/
def lowerStr (s : String) : String := String.mk (s.data.map lowerChar)

/-- Python membership scan: does `needle` occur contiguously in `hay`? -/
def listInfixB (needle hay : List Char) : Bool :=
  match hay with
  | [] => needle.isEmpty
  | _ :: t => needle.isPrefixOf hay || listInfixB needle t

/-- Python substring test `needle in hay` on strings. -/
def pyIn (needle hay : String) : Bool := listInfixB needle.data hay.data

/-- Python `s.endswith(suffix)` for a single suffix. -/
def strEndsWith (s suffix : String) : Bool := suffix.data.isSuffixOf s.data

/-- Python `s.endswith(tuple)`: true when some listed suffix matches. -/
def strEndsWithAny (s : String) (suffixes : List String) : Bool :=
  suffixes.any (fun e => strEndsWith s e)

/-- Python slice `s[:n]` on a string (character based). -/
def strTake (s : String) (n : Nat) : String := String.mk (s.data.take n)

/-- Python `\w` on ASCII text: letters, digits and underscore. -/
def isWordChar (c : Char) : Bool := c.isAlphanum || c = '_'

/-- Python `\s` for `str` patterns: ASCII whitespace plus Unicode spaces. -/
def isSpaceChar (c : Char) : Bool :=
  c = ' ' || c = '\t' || c = '\n' || c = '\r' || c = '\x0b' || c = '\x0c' ||
  (28 ≤ c.toNat && c.toNat ≤ 31) || c.toNat = 133 || c.toNat = 160 ||
  c.toNat = 5760 || (8192 ≤ c.toNat && c.toNat ≤ 8202) ||
  c.toNat = 8232 || c.toNat = 8233 || c.toNat = 8239 ||
  c.toNat = 8287 || c.toNat = 12288

/-- Tokens of the regex fragment used by the source's patterns. -/
inductive Tok where
  /-- A case-insensitive literal; the stored string is lowercase. -/
  | lit (s : String)
  /-- A greedy repetition of a character class, at least `lo` and at
  most `hi` times (`none` = unbounded). -/
  | cls (p : Char → Bool) (lo : Nat) (hi : Option Nat)
  /-- An alternation of case-insensitive literals, tried left to right. -/
  | alt (ss : List String)
  /-- A word boundary `\b`. -/
  | wb

/-- The character preceding the current position after consuming `l`. -/
def lastOpt (l : List Char) (prev : Option Char) : Option Char :=
  match l.getLast? with
  | some c => some c
  | none => prev

/-- Case-insensitive literal test: `s` (stored lowercase) against the
head of `cs`. -/
def litMatch (s : String) (cs : List Char) : Bool :=
  s.data == (cs.take s.data.length).map lowerChar

/-- Length of the longest prefix of `cs` satisfying `p`. -/
def runLen (p : Char → Bool) : List Char → Nat
  | [] => 0
  | c :: cs => if p c then runLen p cs + 1 else 0

/-- Word-boundary test between the previous and the next character. -/
def atBoundary (prev next : Option Char) : Bool :=
  (match prev with | some c => isWordChar c | none => false) !=
  (match next with | some c => isWordChar c | none => false)

/-- Greedy repetition with backtracking: try consuming `k`, `k-1`, …,
`lo` characters, continuing with `cont` after each attempt.  The caller
bounds `k` by the length of the run of class characters, so every
consumed character satisfies the class. -/
def tryRep (cont : Option Char → List Char → Option (List Char)) (lo : Nat)
    (prev : Option Char) (cs : List Char) : Nat → Option (List Char)
  | 0 =>
    if lo = 0 then
      match cont prev cs with
      | some tail => some tail
      | none => none
    else none
  | k + 1 =>
    if k + 1 < lo then none
    else
      match cont (lastOpt (cs.take (k + 1)) prev) (cs.drop (k + 1)) with
      | some tail => some (cs.take (k + 1) ++ tail)
      | none => tryRep cont lo prev cs k

/-- Alternation with backtracking: try each literal in order and
continue with `cont`; on failure fall through to the next literal. -/
def tryAlts (cont : Option Char → List Char → Option (List Char))
    (prev : Option Char) (cs : List Char) : List String → Option (List Char)
  | [] => none
  | s :: rest =>
    if litMatch s cs then
      match cont (lastOpt (cs.take s.data.length) prev) (cs.drop s.data.length) with
      | some tail => some (cs.take s.data.length ++ tail)
      | none => tryAlts cont prev cs rest
    else tryAlts cont prev cs rest

/-- Match a token sequence at the current position, returning the
consumed characters (group 0 of the match). -/
def matchToks : List Tok → Option Char → List Char → Option (List Char)
  | [], _, _ => some []
  | Tok.lit s :: rest, prev, cs =>
    if litMatch s cs then
      match matchToks rest (lastOpt (cs.take s.data.length) prev) (cs.drop s.data.length) with
      | some tail => some (cs.take s.data.length ++ tail)
      | none => none
    else none
  | Tok.cls p lo hi :: rest, prev, cs =>
    let m := runLen p cs
    let kmax := match hi with | none => m | some h => min h m
    tryRep (fun pr cs2 => matchToks rest pr cs2) lo prev cs kmax
  | Tok.alt ss :: rest, prev, cs =>
    tryAlts (fun pr cs2 => matchToks rest pr cs2) prev cs ss
  | Tok.wb :: rest, prev, cs =>
    if atBoundary prev cs.head? then matchToks rest prev cs else none

/-- Leftmost search (Python `re.search`): try a match at every position
from left to right, tracking the previous character for `\b`. -/
def searchFrom (toks : List Tok) (prev : Option Char) : List Char → Option (List Char)
  | [] => matchToks toks prev []
  | c :: cs =>
    match matchToks toks prev (c :: cs) with
    | some m => some m
    | none => searchFrom toks (some c) cs

/-- `re.search(pattern, text)`, returning `group(0)` of the first match. -/
def reSearch (toks : List Tok) (text : String) : Option String :=
  (searchFrom toks none text.data).map String.mk

/-! ## Settings of `auction_scraper.py` (lines 16-34) -/

/-- `COUNTY_SITES` (source lines 16-22): configured site name / seed URL
pairs, in iteration (insertion) order. -/
def COUNTY_SITES : List (String × String) :=
  [("Sebastian County", "https://www.sebastiancountyar.gov/"),
   ("Pulaski County", "https://www.pulaskicounty.net/"),
   ("Crawford County", "https://www.crawfordcountyar.gov/"),
   ("Franklin County", "https://franklincountyar.gov/")]

/-- `INCLUDE_HINTS` (source lines 24-27). -/
def INCLUDE_HINTS : List String :=
  ["auction", "commissioner", "sheriff", "sale", "foreclosure",
   "tax sale", "public notice", "trustee"]

/-- `EXCLUDE_HINTS` (source lines 28-32). -/
def EXCLUDE_HINTS : List String :=
  ["inmate", "detention", "jail", "visitation", "k9",
   "pay-taxes", "treasurer", "taxes", "forms", "faq", "resources",
   "records", "jobs", "careers", "swat", "juvenile", "security"]

/-- `DOC_EXT` (source line 33). -/
def DOC_EXT : List String := [".pdf", ".doc", ".docx"]

/-! ## Link relevance filter (source lines 65-73) -/

/-- `looks_relevant(text, href)`: lowercase both inputs; accept when an
INCLUDE hint occurs in the text or the URL and no EXCLUDE hint occurs in
either, or when the URL ends in a document extension and no EXCLUDE hint
occurs in the URL. -/
def looks_relevant (text href : String) : Bool :=
  let t := lowerStr text
  let h := lowerStr href
  if (INCLUDE_HINTS.any fun x => pyIn x t || pyIn x h) &&
     !(EXCLUDE_HINTS.any fun x => pyIn x t || pyIn x h) then true
  else if strEndsWithAny h DOC_EXT && !(EXCLUDE_HINTS.any fun x => pyIn x h) then true
  else false

/-! ## Same-site check (source lines 75-78) -/

/-- Characters after the first `://` of a URL, if any. -/
def afterSchemeSep : List Char → Option (List Char)
  | [] => none
  | c :: cs =>
    if c = ':' && [Char.ofNat 47, Char.ofNat 47].isPrefixOf cs then some (cs.drop 2)
    else afterSchemeSep cs

/-- `urlparse(url).netloc` for the absolute URLs the scraper handles:
the authority component between the `//` separator and the next `/`,
`?` or `#`. -/
def netlocOf (url : String) : String :=
  match afterSchemeSep url.data with
  | some rest =>
    String.mk (rest.takeWhile fun c => c != '/' && c != '?' && c != '#')
  | none =>
    if ['/', '/'].isPrefixOf url.data then
      String.mk ((url.data.drop 2).takeWhile fun c => c != '/' && c != '?' && c != '#')
    else ""

/-- `urlparse(url).netloc.split(":")[0]`: the host without the port. -/
def hostOf (url : String) : String :=
  String.mk ((netlocOf url).data.takeWhile fun c => c != ':')

/-- `same_site(full, base)`: the full URL's host ends with the base
URL's host. -/
def same_site (full base : String) : Bool :=
  (hostOf base).data.isSuffixOf (hostOf full).data

/-! ## Date extraction (source lines 103-113) -/

/-- Pattern `\b\d{1,2}/\d{1,2}/\d{2,4}\b` of `parse_date_strings`. -/
def pNumericDate : List Tok :=
  [Tok.wb, Tok.cls Char.isDigit 1 (some 2), Tok.lit "/",
   Tok.cls Char.isDigit 1 (some 2), Tok.lit "/",
   Tok.cls Char.isDigit 2 (some 4), Tok.wb]

/-- The twelve month-name alternatives of the textual date pattern. -/
def monthNames : List String :=
  ["january", "february", "march", "april", "may", "june", "july",
   "august", "september", "october", "november", "december"]

/-- Pattern `\b(January|...|December)\s+\d{1,2},\s+\d{2,4}\b`. -/
def pTextualDate : List Tok :=
  [Tok.wb, Tok.alt monthNames, Tok.cls isSpaceChar 1 none,
   Tok.cls Char.isDigit 1 (some 2), Tok.lit ",", Tok.cls isSpaceChar 1 none,
   Tok.cls Char.isDigit 2 (some 4), Tok.wb]

/-- First pattern of a list that matches, in order (the `for p in
patterns` loops of the source). -/
def firstPatternMatch : List (List Tok) → String → Option String
  | [], _ => none
  | p :: ps, text =>
    match reSearch p text with
    | some m => some m
    | none => firstPatternMatch ps text

/-- The two date patterns of `parse_date_strings`, in source order. -/
def datePatterns : List (List Tok) := [pNumericDate, pTextualDate]

/-- `parse_date_strings(text)` (source lines 103-113): the first match
of the numeric pattern, else of the textual pattern, else `""`. -/
def parse_date_strings (text : String) : String :=
  match firstPatternMatch datePatterns text with
  | some m => m
  | none => ""

/-! ## Property description extraction (source lines 115-131) -/

/-- Pattern `Address:\s*[^\n]+`. -/
def pAddress : List Tok :=
  [Tok.lit "address:", Tok.cls isSpaceChar 0 none, Tok.cls (fun c => c != '\n') 1 none]

/-- Pattern `Parcel\s*#?:?\s*\w+[-\w]*`. -/
def pParcel : List Tok :=
  [Tok.lit "parcel", Tok.cls isSpaceChar 0 none, Tok.cls (fun c => c == '#') 0 (some 1),
   Tok.cls (fun c => c == ':') 0 (some 1), Tok.cls isSpaceChar 0 none,
   Tok.cls isWordChar 1 none, Tok.cls (fun c => c == '-' || isWordChar c) 0 none]

/-- Pattern `Lot\s+\d+[^\n]*`. -/
def pLot : List Tok :=
  [Tok.lit "lot", Tok.cls isSpaceChar 1 none, Tok.cls Char.isDigit 1 none,
   Tok.cls (fun c => c != '\n') 0 none]

/-- Pattern `Legal Description:\s*[^\n]+`. -/
def pLegal : List Tok :=
  [Tok.lit "legal description:", Tok.cls isSpaceChar 0 none,
   Tok.cls (fun c => c != '\n') 1 none]

/-- Pattern `Property Address:\s*[^\n]+`. -/
def pPropertyAddress : List Tok :=
  [Tok.lit "property address:", Tok.cls isSpaceChar 0 none,
   Tok.cls (fun c => c != '\n') 1 none]

/-- The street-suffix alternatives of the backup line pattern. -/
def streetTokens : List String :=
  ["street", "st.", "avenue", "ave.", "road", "rd.", "lane", "ln.",
   "drive", "dr."]

/-- Backup pattern `[^\n]*(Street|St\.|...|Dr\.)[^\n]*`. -/
def pStreetLine : List Tok :=
  [Tok.cls (fun c => c != '\n') 0 none, Tok.alt streetTokens,
   Tok.cls (fun c => c != '\n') 0 none]

/-- The five labelled patterns of `extract_property_bits`, in source
order. -/
def propertyPatterns : List (List Tok) :=
  [pAddress, pParcel, pLot, pLegal, pPropertyAddress]

/-- `extract_property_bits(text)` (source lines 115-131): first match
among the labelled patterns, else the backup street-suffix line, each
truncated to 200 characters; `""` when nothing matches. -/
def extract_property_bits (text : String) : String :=
  match firstPatternMatch propertyPatterns text with
  | some m => strTake m 200
  | none =>
    match reSearch pStreetLine text with
    | some m => strTake m 200
    | none => ""

/-! ## Sale location extraction (source lines 133-145) -/

/-- Fallback pattern `at\s+the\s+[^\n,]*courthouse`. -/
def pAtTheCourthouse : List Tok :=
  [Tok.lit "at", Tok.cls isSpaceChar 1 none, Tok.lit "the",
   Tok.cls isSpaceChar 1 none, Tok.cls (fun c => c != '\n' && c != ',') 0 none,
   Tok.lit "courthouse"]

/-- The apostrophe character, used in the source's literal result
string for the sheriff location. -/
def apoChar : Char := Char.ofNat 39

/-- The literal result string of the sheriff branch of
`extract_location`. -/
def sheriffsOffice : String := "Sheriff" ++ String.mk [apoChar] ++ "s Office"

/-- `extract_location(text)` (source lines 133-145): keyword cascade
over the lowercased text, then the contextual courthouse pattern, else
`""`. -/
def extract_location (text : String) : String :=
  let t := lowerStr text
  if pyIn "courthouse" t then "Courthouse"
  else if pyIn "sheriff" t && pyIn "office" t then sheriffsOffice
  else if pyIn "county judge" t then "County Judge Office"
  else
    match reSearch pAtTheCourthouse text with
    | some m => strTake m 120
    | none => ""

/-! ## PDF detail extraction (source lines 147-161) -/

/-- The `details` dictionary of `extract_pdf_details_from_file`. -/
structure PdfDetails where
  auction_date : String
  auction_location : String
  property_details : String
deriving DecidableEq

/-- The text accumulated from a parsed PDF: `text += "\n" + txt` over
the pages, starting from `""`. -/
def pagesText (pages : List String) : String :=
  pages.foldl (fun acc p => acc ++ "\n" ++ p) ""

/-- `extract_pdf_details_from_file` (source lines 147-161).  The
`pdfplumber` call is external: its outcome is `none` when opening or
reading the PDF raises (the source's `except` path, which leaves every
field empty and only prints a warning), and `some pages` with each
page's extracted text (already defaulted to `""` for pages without a
text layer) otherwise. -/
def extract_pdf_details_from_file (parsed : Option (List String)) : PdfDetails :=
  match parsed with
  | none => ⟨"", "", ""⟩
  | some pages =>
    let text := pagesText pages
    ⟨parse_date_strings text, extract_location text, extract_property_bits text⟩

/-! ## Page scraping (source lines 163-216) -/

/-- One result row of `scrape_page` (the dictionary built at source
lines 188-196).  Note the row has no address field: its fields are
exactly the seven dictionary keys of the source. -/
structure Row where
  county : String
  title : String
  link : String
  auction_date : String
  auction_location : String
  property_details : String
  local_pdf : String
deriving DecidableEq

/-- Outcome of the `sess.get` of `scrape_page`, together with the DNS
precheck.  A `response` carries the HTTP status, the final URL after
redirects (`resp.url`) and the anchors of the parsed page as (anchor
text, resolved absolute URL) pairs — anchor-text extraction and
`urljoin` resolution belong to the external HTML layer. -/
inductive FetchOutcome where
  | dnsFailure
  | connectionError
  | timeout
  | otherError
  | response (status : Nat) (finalUrl : String) (links : List (String × String))

/-- External collaborators of one `scrape_page` call: the fetch
outcome, `download_pdf` (returning the saved path, or `""` on any
failure — the source's `except` returns `""`), and the PDF parse used
by `extract_pdf_details_from_file` (`none` = parse error). -/
structure ScrapeEnv where
  fetch : FetchOutcome
  download : String → String → String
  pdfParse : String → Option (List String)

/-- Build one result row for an accepted link (source lines 188-205):
all detail fields start empty; only a `.pdf` link is downloaded, and
only a successful download is parsed for details. -/
def mkRow (env : ScrapeEnv) (county title full : String) : Row :=
  let base : Row := ⟨county, title, full, "", "", "", ""⟩
  if strEndsWith (lowerStr full) ".pdf" then
    let saved := env.download full (county ++ " - " ++ title)
    let withPdf := { base with local_pdf := saved }
    if saved ≠ "" then
      let det := extract_pdf_details_from_file (env.pdfParse saved)
      { withPdf with
          auction_date := det.auction_date,
          auction_location := det.auction_location,
          property_details := det.property_details }
    else withPdf
  else base

/-- The anchor loop of `scrape_page` (source lines 179-206): default
the title, skip (title, URL) pairs already seen, and keep a row for
every link passing `looks_relevant` and the same-site-or-document
guard. -/
def processLinks (env : ScrapeEnv) (county base : String) :
    List (String × String) → List (String × String) → List Row
  | [], _ => []
  | (t, full) :: rest, seen =>
    let title := if t = "" then "(no title)" else t
    if seen.contains (title, full) then processLinks env county base rest seen
    else
      let seen2 := (title, full) :: seen
      if looks_relevant title full &&
         (same_site full base || strEndsWithAny (lowerStr full) DOC_EXT) then
        mkRow env county title full :: processLinks env county base rest seen2
      else processLinks env county base rest seen2

/-- `scrape_page` (source lines 163-216): every retrieval failure (DNS
failure, connection error, timeout, unexpected error, HTTP status ≥ 400
including the special-cased 403) only prints a warning and yields `[]`;
a successful response is scanned for links. -/
def scrape_page (env : ScrapeEnv) (county url : String) : List Row :=
  match env.fetch with
  | FetchOutcome.dnsFailure => []
  | FetchOutcome.connectionError => []
  | FetchOutcome.timeout => []
  | FetchOutcome.otherError => []
  | FetchOutcome.response status finalUrl links =>
    if 400 ≤ status then []
    else processLinks env county finalUrl links []

/-! ## Pipeline and deduplication (source lines 218-234) -/

/-- One configured site of a run: name, seed URL, and the external
outcomes of its `scrape_page` call. -/
structure SiteSpec where
  county : String
  url : String
  env : ScrapeEnv

/-- The dedup loop of `scrape_auctions` (source lines 229-233): walk
the accumulated rows, keeping a row only when its `link` has not been
seen. -/
def dedupAux : List Row → List String → List Row
  | [], _ => []
  | r :: rs, seen =>
    if seen.contains r.link then dedupAux rs seen
    else r :: dedupAux rs (r.link :: seen)

/-- `Deduplicate by link` over the concatenated results. -/
def dedupRows (rows : List Row) : List Row := dedupAux rows []

/-- `scrape_auctions` (source lines 218-234): extend `results` with
each site's rows in configuration order, then deduplicate by `link`.
The session setup and the output directory are external side effects
with no bearing on the result rows. -/
def scrape_auctions (sites : List SiteSpec) : List Row :=
  dedupRows (sites.foldl (fun acc s => acc ++ scrape_page s.env s.county s.url) [])

/-- The concatenated per-site results, before deduplication. -/
def joinedRows (sites : List SiteSpec) : List Row :=
  (sites.map fun s => scrape_page s.env s.county s.url).flatten

/-! ## Claim C3: the link relevance rule -/

/-- An INCLUDE hint occurs in the lowercased link text or URL. -/
def includeHit (text href : String) : Bool :=
  INCLUDE_HINTS.any fun x => pyIn x (lowerStr text) || pyIn x (lowerStr href)

/-- An EXCLUDE hint occurs in the lowercased link text or URL. -/
def excludeHitTextOrUrl (text href : String) : Bool :=
  EXCLUDE_HINTS.any fun x => pyIn x (lowerStr text) || pyIn x (lowerStr href)

/-- An EXCLUDE hint occurs in the lowercased URL. -/
def excludeHitUrl (href : String) : Bool :=
  EXCLUDE_HINTS.any fun x => pyIn x (lowerStr href)

/-- The lowercased URL ends in one of the document extensions. -/
def isDocUrl (href : String) : Bool := strEndsWithAny (lowerStr href) DOC_EXT

/-- The relevance rule as claim C3 words it: in both branches, "no
EXCLUDE keyword occurs in either the link text or the URL". -/
def looksRelevantClaimC3 (text href : String) : Bool :=
  (includeHit text href && !excludeHitTextOrUrl text href) ||
  (isDocUrl href && !excludeHitTextOrUrl text href)

/-- C3, counterexample: a link whose text matches both an INCLUDE hint
("sheriff") and an EXCLUDE hint ("jail") but whose URL is a clean
`.pdf` URL is accepted by `looks_relevant`, while the claim's rule
(EXCLUDE checked against text and URL in both branches, and "a link
matching both an INCLUDE and an EXCLUDE keyword is rejected") says it
is rejected. -/
theorem looks_relevant_overlap_cex :
    looks_relevant "sheriff jail" "https://example.gov/notice.pdf" = true ∧
    includeHit "sheriff jail" "https://example.gov/notice.pdf" = true ∧
    excludeHitTextOrUrl "sheriff jail" "https://example.gov/notice.pdf" = true ∧
    looksRelevantClaimC3 "sheriff jail" "https://example.gov/notice.pdf" = false := by
  decide

/-- C3 (amended): the relevance filter returns true iff an INCLUDE
keyword occurs case-insensitively in the link text or the URL with no
EXCLUDE keyword in either, or the URL ends in `.pdf`/`.doc`/`.docx`
and no EXCLUDE keyword occurs in the URL alone — in the document
branch the link text is not consulted, so a link matching both an
INCLUDE and an EXCLUDE keyword in its text is still accepted when its
URL is a clean document URL. -/
theorem looks_relevant_eq (text href : String) :
    looks_relevant text href =
      ((includeHit text href && !excludeHitTextOrUrl text href) ||
       (isDocUrl href && !excludeHitUrl href)) := by
  cases hI : (INCLUDE_HINTS.any fun x => pyIn x (lowerStr text) || pyIn x (lowerStr href)) <;>
  cases hE : (EXCLUDE_HINTS.any fun x => pyIn x (lowerStr text) || pyIn x (lowerStr href)) <;>
  cases hD : (strEndsWithAny (lowerStr href) DOC_EXT) <;>
  cases hU : (EXCLUDE_HINTS.any fun x => pyIn x (lowerStr href)) <;>
  simp [looks_relevant, includeHit, excludeHitTextOrUrl, excludeHitUrl, isDocUrl, hI, hE, hD, hU]

/-! ## Claim C7: PDF parse failures are non-fatal and yield empty fields -/

/-- Scenario for C7: one site whose single relevant `.pdf` link
downloads successfully but fails to parse. -/
def envC7 : ScrapeEnv :=
  ⟨FetchOutcome.response 200 "https://www.gamma.gov/"
    [("Tax Sale", "https://www.gamma.gov/notice.pdf")],
   fun _ _ => "saved7.pdf", fun _ => none⟩

/-- C7: a decode or parse error while reading a PDF (the `except` path
of `extract_pdf_details_from_file`) yields an extraction result with
every extracted detail field empty, as does a PDF with no pages or
with pages carrying no text layer; the batch is not aborted — a run
whose only document fails to parse still completes, producing that
document's row with all three extracted fields empty. -/
theorem extract_pdf_details_error_empty :
    extract_pdf_details_from_file none = ⟨"", "", ""⟩ ∧
    extract_pdf_details_from_file (some []) = ⟨"", "", ""⟩ ∧
    extract_pdf_details_from_file (some ["", ""]) = ⟨"", "", ""⟩ ∧
    scrape_auctions [⟨"Gamma County", "https://www.gamma.gov/", envC7⟩] =
      [⟨"Gamma County", "Tax Sale", "https://www.gamma.gov/notice.pdf",
        "", "", "", "saved7.pdf"⟩] := by
  decide

/-! ## Claim C9: retrieval failures only skip the page -/

/-- A fetch outcome the source treats as a failure: DNS failure,
connection error, timeout, unexpected error, or HTTP status ≥ 400. -/
def fetchFailed : FetchOutcome → Bool
  | FetchOutcome.response status _ _ => decide (400 ≤ status)
  | _ => true

/-- Appending-fold helper: a run over sites whose pages all fail
accumulates nothing. -/
theorem foldl_append_nil {α : Type} (f : α → List Row) :
    ∀ (l : List α) (acc : List Row), (∀ s ∈ l, f s = []) →
      l.foldl (fun a s => a ++ f s) acc = acc := by
  intro l
  induction l with
  | nil => intro acc _; rfl
  | cons s rest ih =>
    intro acc h
    have hs : f s = [] := h s (by simp)
    simp only [List.foldl_cons, hs, List.append_nil]
    exact ih acc (fun x hx => h x (by simp [hx]))

/-- C9: every page retrieval failure — HTTP status ≥ 400, DNS
resolution failure, timeout, connection error, or any unexpected
error — makes `scrape_page` return the empty row list instead of
raising, and a run whose sites all fail completes with the empty
result set. -/
theorem scrape_page_failure_isolated (env : ScrapeEnv) (county url : String)
    (sites : List SiteSpec)
    (h : fetchFailed env.fetch = true)
    (hall : ∀ s ∈ sites, fetchFailed s.env.fetch = true) :
    scrape_page env county url = [] ∧ scrape_auctions sites = [] := by
  constructor
  · cases henv : env.fetch with
    | response status finalUrl links =>
      rw [henv] at h
      simp only [fetchFailed, decide_eq_true_eq] at h
      simp [scrape_page, henv, h]
    | dnsFailure => simp [scrape_page, henv]
    | connectionError => simp [scrape_page, henv]
    | timeout => simp [scrape_page, henv]
    | otherError => simp [scrape_page, henv]
  · have hempty : ∀ s ∈ sites, scrape_page s.env s.county s.url = [] := by
      intro s hs
      cases henv : s.env.fetch with
      | response status finalUrl links =>
        have := hall s hs
        rw [henv] at this
        simp only [fetchFailed, decide_eq_true_eq] at this
        simp [scrape_page, henv, this]
      | dnsFailure => simp [scrape_page, henv]
      | connectionError => simp [scrape_page, henv]
      | timeout => simp [scrape_page, henv]
      | otherError => simp [scrape_page, henv]
    unfold scrape_auctions
    rw [foldl_append_nil _ sites [] hempty]
    rfl

/-- C9 witness: a timed-out site yields no rows and the run over it
completes with the empty result set. -/
theorem scrape_page_failure_isolated_witness :
    scrape_page ⟨FetchOutcome.timeout, fun _ _ => "", fun _ => none⟩
      "Sebastian County" "https://www.sebastiancountyar.gov/" = [] ∧
    scrape_auctions [⟨"Sebastian County", "https://www.sebastiancountyar.gov/",
      ⟨FetchOutcome.timeout, fun _ _ => "", fun _ => none⟩⟩] = [] :=
  scrape_page_failure_isolated _ "Sebastian County" "https://www.sebastiancountyar.gov/"
    _ (by decide) (by intro s hs; simp at hs; rw [hs]; decide)

/-! ## Claim C5: date extraction -/

/-- C5: date extraction returns the first match of the numeric
`M/D/YYYY`-family pattern, else the first match of the textual
`Month D, YYYY` pattern, else the empty string; no calendar validation
is performed — "13/45/2099" is returned verbatim. -/
theorem parse_date_strings_spec (text : String) :
    (∀ m, reSearch pNumericDate text = some m → parse_date_strings text = m) ∧
    (reSearch pNumericDate text = none →
      ∀ m, reSearch pTextualDate text = some m → parse_date_strings text = m) ∧
    (reSearch pNumericDate text = none → reSearch pTextualDate text = none →
      parse_date_strings text = "") ∧
    parse_date_strings "13/45/2099" = "13/45/2099" := by
  refine ⟨?_, ?_, ?_, by decide⟩
  · intro m hm
    simp [parse_date_strings, datePatterns, firstPatternMatch, hm]
  · intro h1 m hm
    simp [parse_date_strings, datePatterns, firstPatternMatch, h1, hm]
  · intro h1 h2
    simp [parse_date_strings, datePatterns, firstPatternMatch, h1, h2]

/-- C5 witness: the numeric pattern wins on a concrete text. -/
theorem parse_date_strings_spec_witness :
    parse_date_strings "Sale on 3/14/2025" = "3/14/2025" :=
  (parse_date_strings_spec "Sale on 3/14/2025").1 "3/14/2025" (by decide)

/-! ## Claim C4: property description extraction -/

/-- C4: the property-description extractor returns the first match
among, in priority order, the `Address:` pattern, the `Parcel`
pattern, the `Lot N` pattern, the `Legal Description:` pattern and the
`Property Address:` pattern, then as a last resort the street-suffix
line pattern, each truncated to at most 200 characters; when no
pattern matches the result is empty. -/
theorem extract_property_bits_spec (text : String) :
    (extract_property_bits text).length ≤ 200 ∧
    (∀ m, reSearch pAddress text = some m →
      extract_property_bits text = strTake m 200) ∧
    (reSearch pAddress text = none →
      ∀ m, reSearch pParcel text = some m →
        extract_property_bits text = strTake m 200) ∧
    (reSearch pAddress text = none → reSearch pParcel text = none →
      ∀ m, reSearch pLot text = some m →
        extract_property_bits text = strTake m 200) ∧
    (reSearch pAddress text = none → reSearch pParcel text = none →
      reSearch pLot text = none →
      ∀ m, reSearch pLegal text = some m →
        extract_property_bits text = strTake m 200) ∧
    (reSearch pAddress text = none → reSearch pParcel text = none →
      reSearch pLot text = none → reSearch pLegal text = none →
      ∀ m, reSearch pPropertyAddress text = some m →
        extract_property_bits text = strTake m 200) ∧
    (reSearch pAddress text = none → reSearch pParcel text = none →
      reSearch pLot text = none → reSearch pLegal text = none →
      reSearch pPropertyAddress text = none →
      ∀ m, reSearch pStreetLine text = some m →
        extract_property_bits text = strTake m 200) ∧
    (reSearch pAddress text = none → reSearch pParcel text = none →
      reSearch pLot text = none → reSearch pLegal text = none →
      reSearch pPropertyAddress text = none → reSearch pStreetLine text = none →
      extract_property_bits text = "") := by
  have hlen : ∀ m : String, (strTake m 200).length ≤ 200 := by
    intro m
    show (m.data.take 200).length ≤ 200
    simp
  refine ⟨?_, ?_, ?_, ?_, ?_, ?_, ?_, ?_⟩
  · unfold extract_property_bits
    cases h1 : firstPatternMatch propertyPatterns text with
    | some m => simpa using hlen m
    | none =>
      cases h2 : reSearch pStreetLine text with
      | some m => simpa using hlen m
      | none => simp
  · intro m hm
    simp [extract_property_bits, propertyPatterns, firstPatternMatch, hm]
  · intro h1 m hm
    simp [extract_property_bits, propertyPatterns, firstPatternMatch, h1, hm]
  · intro h1 h2 m hm
    simp [extract_property_bits, propertyPatterns, firstPatternMatch, h1, h2, hm]
  · intro h1 h2 h3 m hm
    simp [extract_property_bits, propertyPatterns, firstPatternMatch, h1, h2, h3, hm]
  · intro h1 h2 h3 h4 m hm
    simp [extract_property_bits, propertyPatterns, firstPatternMatch, h1, h2, h3, h4, hm]
  · intro h1 h2 h3 h4 h5 m hm
    simp [extract_property_bits, propertyPatterns, firstPatternMatch, h1, h2, h3, h4, h5, hm]
  · intro h1 h2 h3 h4 h5 h6
    simp [extract_property_bits, propertyPatterns, firstPatternMatch, h1, h2, h3, h4, h5, h6]

/-- C4 witness: the `Address:` pattern wins inside a `Property
Address:` label and the result is the truncated match. -/
theorem extract_property_bits_spec_witness :
    extract_property_bits "Property Address: 456 Oak Ave, Springfield" =
      strTake "Address: 456 Oak Ave, Springfield" 200 :=
  (extract_property_bits_spec "Property Address: 456 Oak Ave, Springfield").2.1
    "Address: 456 Oak Ave, Springfield" (by decide)

/-! ## Claim C6: sale location extraction

The fallback pattern of `extract_location` ends in the literal
`courthouse`; the lemmas below show any string it matches contains
"courthouse" case-insensitively, so the fallback can never fire in the
branch where the lowercased text lacks that keyword. -/

/-- The trailing literal of a token list, when its last token is a
literal. -/
def lastTokLit : List Tok → Option String
  | [] => none
  | [Tok.lit s] => some s
  | [_] => none
  | _ :: t :: rest => lastTokLit (t :: rest)

/-- The Python substring scan agrees with contiguous-sublist
containment. -/
theorem listInfixB_iff (needle hay : List Char) :
    listInfixB needle hay = true ↔ needle <:+: hay := by
  induction hay with
  | nil =>
    simp [listInfixB, List.isEmpty_iff, List.infix_nil]
  | cons c t ih =>
    simp [listInfixB, List.infix_cons_iff, ih, List.isPrefixOf_iff_prefix]

/-- Soundness of the greedy repetition: a successful result is a
prefix of the input and inherits any left-append-stable property of
the continuation's result. -/
theorem tryRep_sound (Q : List Char → Prop)
    (hQ : ∀ pre t, Q t → Q (pre ++ t))
    (cont : Option Char → List Char → Option (List Char))
    (hcont : ∀ pr cs2 t, cont pr cs2 = some t → t <+: cs2 ∧ Q t) :
    ∀ (k lo : Nat) (prev : Option Char) (cs m : List Char),
      tryRep cont lo prev cs k = some m → m <+: cs ∧ Q m := by
  intro k
  induction k with
  | zero =>
    intro lo prev cs m h
    unfold tryRep at h
    split at h
    · cases hc : cont prev cs with
      | none => rw [hc] at h; simp at h
      | some tail =>
        rw [hc] at h
        simp only [Option.some.injEq] at h
        subst h
        exact hcont _ _ _ hc
    · simp at h
  | succ k ih =>
    intro lo prev cs m h
    unfold tryRep at h
    split at h
    · simp at h
    · cases hc : cont (lastOpt (cs.take (k + 1)) prev) (cs.drop (k + 1)) with
      | none => rw [hc] at h; exact ih _ _ _ _ h
      | some tail =>
        rw [hc] at h
        simp only [Option.some.injEq] at h
        subst h
        have ⟨hpre, hq⟩ := hcont _ _ _ hc
        constructor
        · obtain ⟨t2, ht2⟩ := hpre
          exact ⟨t2, by rw [List.append_assoc, ht2, List.take_append_drop]⟩
        · exact hQ _ _ hq

/-- Soundness of the alternation: as `tryRep_sound`. -/
theorem tryAlts_sound (Q : List Char → Prop)
    (hQ : ∀ pre t, Q t → Q (pre ++ t))
    (cont : Option Char → List Char → Option (List Char))
    (hcont : ∀ pr cs2 t, cont pr cs2 = some t → t <+: cs2 ∧ Q t) :
    ∀ (ss : List String) (prev : Option Char) (cs m : List Char),
      tryAlts cont prev cs ss = some m → m <+: cs ∧ Q m := by
  intro ss
  induction ss with
  | nil => intro prev cs m h; simp [tryAlts] at h
  | cons s rest ih =>
    intro prev cs m h
    unfold tryAlts at h
    split at h
    · cases hc : cont (lastOpt (cs.take s.data.length) prev) (cs.drop s.data.length) with
      | none => rw [hc] at h; exact ih _ _ _ h
      | some tail =>
        rw [hc] at h
        simp only [Option.some.injEq] at h
        subst h
        have ⟨hpre, hq⟩ := hcont _ _ _ hc
        constructor
        · obtain ⟨t2, ht2⟩ := hpre
          exact ⟨t2, by rw [List.append_assoc, ht2, List.take_append_drop]⟩
        · exact hQ _ _ hq
    · exact ih _ _ _ h

/-- Soundness of the token matcher: a match is a prefix of the input,
and when the pattern ends in a literal, the lowercased match ends in
that literal. -/
theorem matchToks_sound :
    ∀ (toks : List Tok) (prev : Option Char) (cs m : List Char),
      matchToks toks prev cs = some m →
      m <+: cs ∧ ∀ s, lastTokLit toks = some s → s.data <:+ m.map lowerChar := by
  intro toks
  induction toks with
  | nil =>
    intro prev cs m h
    simp only [matchToks, Option.some.injEq] at h
    subst h
    exact ⟨List.nil_prefix, by intro s hs; simp [lastTokLit] at hs⟩
  | cons tok rest ih =>
    intro prev cs m h
    have hext : ∀ (pre t : List Char),
        (∀ s, lastTokLit rest = some s → s.data <:+ t.map lowerChar) →
        ∀ s, lastTokLit rest = some s → s.data <:+ (pre ++ t).map lowerChar := by
      intro pre t ht s hs
      rw [List.map_append]
      exact (ht s hs).trans (List.suffix_append _ _)
    cases tok with
    | lit s =>
      simp only [matchToks] at h
      split at h
      case isTrue hlit =>
        cases hr : matchToks rest (lastOpt (cs.take s.data.length) prev)
            (cs.drop s.data.length) with
        | none => rw [hr] at h; simp at h
        | some tail =>
          rw [hr] at h
          simp only [Option.some.injEq] at h
          subst h
          have ⟨hpre, hsuf⟩ := ih _ _ _ hr
          refine ⟨?_, ?_⟩
          · obtain ⟨t2, ht2⟩ := hpre
            exact ⟨t2, by rw [List.append_assoc, ht2, List.take_append_drop]⟩
          · intro s2 hs2
            cases rest with
            | nil =>
              have htail : tail = [] := by
                simpa [matchToks, eq_comm] using hr
              subst htail
              have hs2' : s2 = s := by
                simpa [lastTokLit, eq_comm] using hs2
              subst hs2'
              have heq : s2.data = (cs.take s2.data.length).map lowerChar :=
                beq_iff_eq.mp hlit
              rw [List.append_nil, ← heq]
            | cons r2 rs =>
              have hs2' : lastTokLit (r2 :: rs) = some s2 := by
                simpa [lastTokLit] using hs2
              exact hext _ _ (fun s3 hs3 => hsuf s3 hs3) s2 hs2'
      case isFalse => simp at h
    | cls p lo hi =>
      simp only [matchToks] at h
      have hsound := tryRep_sound
        (fun t => ∀ s2, lastTokLit rest = some s2 → s2.data <:+ t.map lowerChar)
        (fun pre t ht => hext pre t ht)
        (fun pr cs2 => matchToks rest pr cs2)
        (fun pr cs2 t hc => ih pr cs2 t hc) _ _ _ _ _ h
      refine ⟨hsound.1, ?_⟩
      intro s2 hs2
      cases rest with
      | nil => simp [lastTokLit] at hs2
      | cons r2 rs => exact hsound.2 s2 (by simpa [lastTokLit] using hs2)
    | alt ss =>
      simp only [matchToks] at h
      have hsound := tryAlts_sound
        (fun t => ∀ s2, lastTokLit rest = some s2 → s2.data <:+ t.map lowerChar)
        (fun pre t ht => hext pre t ht)
        (fun pr cs2 => matchToks rest pr cs2)
        (fun pr cs2 t hc => ih pr cs2 t hc) _ _ _ _ h
      refine ⟨hsound.1, ?_⟩
      intro s2 hs2
      cases rest with
      | nil => simp [lastTokLit] at hs2
      | cons r2 rs => exact hsound.2 s2 (by simpa [lastTokLit] using hs2)
    | wb =>
      simp only [matchToks] at h
      split at h
      · have ⟨hpre, hsuf⟩ := ih _ _ _ h
        refine ⟨hpre, ?_⟩
        intro s2 hs2
        cases rest with
        | nil => simp [lastTokLit] at hs2
        | cons r2 rs => exact hsuf s2 (by simpa [lastTokLit] using hs2)
      · simp at h

/-- Soundness of the leftmost search: a match is a contiguous
substring of the text, ending in the pattern's trailing literal. -/
theorem searchFrom_sound (toks : List Tok) :
    ∀ (cs : List Char) (prev : Option Char) (m : List Char),
      searchFrom toks prev cs = some m →
      m <:+: cs ∧ ∀ s, lastTokLit toks = some s → s.data <:+ m.map lowerChar := by
  intro cs
  induction cs with
  | nil =>
    intro prev m h
    simp only [searchFrom] at h
    have ⟨hpre, hsuf⟩ := matchToks_sound _ _ _ _ h
    exact ⟨hpre.isInfix, hsuf⟩
  | cons c t ih =>
    intro prev m h
    simp only [searchFrom] at h
    cases hm : matchToks toks prev (c :: t) with
    | some m2 =>
      rw [hm] at h
      simp only [Option.some.injEq] at h
      subst h
      have ⟨hpre, hsuf⟩ := matchToks_sound _ _ _ _ hm
      exact ⟨hpre.isInfix, hsuf⟩
    | none =>
      rw [hm] at h
      have ⟨hinf, hsuf⟩ := ih _ _ h
      exact ⟨List.infix_cons_iff.mpr (Or.inr hinf), hsuf⟩

/-- Any match of the contextual courthouse pattern forces the keyword
"courthouse" to occur in the lowercased text, so the fallback branch of
`extract_location` cannot fire when the first branch's keyword test
failed. -/
theorem courthouse_of_fallback (text m : String)
    (h : reSearch pAtTheCourthouse text = some m) :
    pyIn "courthouse" (lowerStr text) = true := by
  unfold reSearch at h
  cases hs : searchFrom pAtTheCourthouse none text.data with
  | none => rw [hs] at h; simp at h
  | some md =>
    have ⟨hinf, hsuf⟩ := searchFrom_sound _ _ _ _ hs
    have hlast : lastTokLit pAtTheCourthouse = some "courthouse" := by rfl
    have h1 : ("courthouse" : String).data <:+ md.map lowerChar := hsuf _ hlast
    have h2 : md.map lowerChar <:+: text.data.map lowerChar := hinf.map lowerChar
    have h3 : ("courthouse" : String).data <:+: text.data.map lowerChar :=
      h1.isInfix.trans h2
    show listInfixB ("courthouse" : String).data (lowerStr text).data = true
    exact (listInfixB_iff _ _).mpr h3

/-- C6: the sale-location extractor classifies over the lowercased
text: "courthouse" present yields "Courthouse"; otherwise "sheriff"
and "office" both present yield "Sheriff's Office"; otherwise "county
judge" present yields "County Judge Office"; otherwise the contextual
"at the ... courthouse" pattern is attempted — which can never match
once the courthouse keyword is absent — so unmatched text yields the
empty string, and the result is always one of the three fixed
locations or empty, never a guess. -/
theorem extract_location_spec (text : String) :
    (pyIn "courthouse" (lowerStr text) = true →
      extract_location text = "Courthouse") ∧
    (pyIn "courthouse" (lowerStr text) = false →
      (pyIn "sheriff" (lowerStr text) && pyIn "office" (lowerStr text)) = true →
      extract_location text = sheriffsOffice) ∧
    (pyIn "courthouse" (lowerStr text) = false →
      (pyIn "sheriff" (lowerStr text) && pyIn "office" (lowerStr text)) = false →
      pyIn "county judge" (lowerStr text) = true →
      extract_location text = "County Judge Office") ∧
    (pyIn "courthouse" (lowerStr text) = false →
      (pyIn "sheriff" (lowerStr text) && pyIn "office" (lowerStr text)) = false →
      pyIn "county judge" (lowerStr text) = false →
      extract_location text = "") ∧
    (extract_location text = "Courthouse" ∨
     extract_location text = sheriffsOffice ∨
     extract_location text = "County Judge Office" ∨
     extract_location text = "") := by
  have p1 : pyIn "courthouse" (lowerStr text) = true →
      extract_location text = "Courthouse" := by
    intro h; simp [extract_location, h]
  have p2 : pyIn "courthouse" (lowerStr text) = false →
      (pyIn "sheriff" (lowerStr text) && pyIn "office" (lowerStr text)) = true →
      extract_location text = sheriffsOffice := by
    intro h1 h2; simp [extract_location, h1, h2]
  have p3 : pyIn "courthouse" (lowerStr text) = false →
      (pyIn "sheriff" (lowerStr text) && pyIn "office" (lowerStr text)) = false →
      pyIn "county judge" (lowerStr text) = true →
      extract_location text = "County Judge Office" := by
    intro h1 h2 h3; simp [extract_location, h1, h2, h3]
  have p4 : pyIn "courthouse" (lowerStr text) = false →
      (pyIn "sheriff" (lowerStr text) && pyIn "office" (lowerStr text)) = false →
      pyIn "county judge" (lowerStr text) = false →
      extract_location text = "" := by
    intro h1 h2 h3
    have hnone : reSearch pAtTheCourthouse text = none := by
      cases hm : reSearch pAtTheCourthouse text with
      | none => rfl
      | some m =>
        have := courthouse_of_fallback text m hm
        rw [this] at h1
        exact absurd h1 (by simp)
    simp [extract_location, h1, h2, h3, hnone]
  refine ⟨p1, p2, p3, p4, ?_⟩
  cases hc : pyIn "courthouse" (lowerStr text) with
  | true => exact Or.inl (p1 hc)
  | false =>
    cases hso : (pyIn "sheriff" (lowerStr text) && pyIn "office" (lowerStr text)) with
    | true => exact Or.inr (Or.inl (p2 hc hso))
    | false =>
      cases hcj : pyIn "county judge" (lowerStr text) with
      | true => exact Or.inr (Or.inr (Or.inl (p3 hc hso hcj)))
      | false => exact Or.inr (Or.inr (Or.inr (p4 hc hso hcj)))

/-- C6 witness: a concrete courthouse text hits the first branch. -/
theorem extract_location_spec_witness :
    extract_location "Sold at the Sebastian County Courthouse" = "Courthouse" :=
  (extract_location_spec "Sold at the Sebastian County Courthouse").1 (by decide)

/-! ## Claims C1 and C2: final deduplication -/

/-- Reference form of link deduplication: keep each row and drop every
later row with the same link. -/
def keepFirstByLink : List Row → List Row
  | [] => []
  | r :: rs => r :: keepFirstByLink (rs.filter fun x => x.link != r.link)
termination_by l => l.length
decreasing_by
  simp only [List.length_cons]
  exact Nat.lt_succ_of_le (List.length_filter_le _ _)

/-- The accumulator fold of `scrape_auctions` concatenates the
per-site results in configuration order. -/
theorem foldl_append_eq_joined (sites : List SiteSpec) :
    ∀ acc : List Row,
      sites.foldl (fun a s => a ++ scrape_page s.env s.county s.url) acc =
        acc ++ joinedRows sites := by
  induction sites with
  | nil => intro acc; simp [joinedRows]
  | cons s rest ih =>
    intro acc
    simp only [List.foldl_cons, ih, joinedRows, List.map_cons, List.flatten_cons,
      List.append_assoc]

/-- The seen-set loop of `scrape_auctions` computes `keepFirstByLink`
on the rows that survive the seen set. -/
theorem dedupAux_eq_keepFirst :
    ∀ (rows : List Row) (seen : List String),
      dedupAux rows seen =
        keepFirstByLink (rows.filter fun r => !seen.contains r.link) := by
  intro rows
  induction rows with
  | nil => intro seen; simp [dedupAux, keepFirstByLink]
  | cons r rs ih =>
    intro seen
    have hunfold : dedupAux (r :: rs) seen =
        if seen.contains r.link then dedupAux rs seen
        else r :: dedupAux rs (r.link :: seen) := rfl
    cases hc : seen.contains r.link with
    | true =>
      have hm : r.link ∈ seen := by simpa using hc
      rw [hunfold, if_pos hc]
      have hfc : (r :: rs).filter (fun x => !seen.contains x.link) =
          rs.filter (fun x => !seen.contains x.link) := by
        simp [List.filter_cons, hm]
      rw [hfc]
      exact ih seen
    | false =>
      rw [hunfold, if_neg (by simpa using hc)]
      have hm : r.link ∉ seen := by simpa using hc
      have hfc : (r :: rs).filter (fun x => !seen.contains x.link) =
          r :: rs.filter (fun x => !seen.contains x.link) := by
        simp [List.filter_cons, hm]
      rw [hfc]
      simp only [keepFirstByLink]
      rw [ih (r.link :: seen)]
      have harg : (rs.filter fun r2 => !(r.link :: seen).contains r2.link) =
          ((rs.filter fun x => !seen.contains x.link).filter fun x => x.link != r.link) := by
        rw [List.filter_filter]
        apply List.filter_congr
        intro x _
        rw [List.contains_cons]
        simp [Bool.not_or, bne, Bool.and_comm]
      rw [harg]

/-- Rows surviving the seen-set loop have links outside the seen set,
and pairwise distinct links. -/
theorem dedupAux_links_nodup :
    ∀ (rows : List Row) (seen : List String),
      (∀ r ∈ dedupAux rows seen, seen.contains r.link = false) ∧
      ((dedupAux rows seen).map Row.link).Nodup := by
  intro rows
  induction rows with
  | nil =>
    intro seen
    constructor
    · intro r h
      simp [dedupAux] at h
    · simp [dedupAux]
  | cons r rs ih =>
    intro seen
    have hunfold : dedupAux (r :: rs) seen =
        if seen.contains r.link then dedupAux rs seen
        else r :: dedupAux rs (r.link :: seen) := rfl
    cases hc : seen.contains r.link with
    | true =>
      rw [hunfold, if_pos hc]
      exact ih seen
    | false =>
      rw [hunfold, if_neg (by simpa using hc)]
      constructor
      · intro x hx
        rcases List.mem_cons.mp hx with rfl | hx2
        · exact hc
        · have h2 := (ih (r.link :: seen)).1 x hx2
          rw [List.contains_cons] at h2
          exact (Bool.or_eq_false_iff.mp h2).2
      · simp only [List.map_cons, List.nodup_cons]
        refine ⟨?_, (ih (r.link :: seen)).2⟩
        intro hmem
        rw [List.mem_map] at hmem
        obtain ⟨x, hx, hlx⟩ := hmem
        have h2 := (ih (r.link :: seen)).1 x hx
        rw [List.contains_cons, hlx] at h2
        simp at h2

/-- A row of the concatenated results whose link no other row carries
survives deduplication. -/
theorem dedupAux_mem_of_unique :
    ∀ (rows : List Row) (seen : List String) (r : Row),
      r ∈ rows → (∀ r2 ∈ rows, r2.link = r.link → r2 = r) →
      seen.contains r.link = false → r ∈ dedupAux rows seen := by
  intro rows
  induction rows with
  | nil => intro seen r h; simp at h
  | cons x rs ih =>
    intro seen r hmem huniq hseen
    have hunfold : dedupAux (x :: rs) seen =
        if seen.contains x.link then dedupAux rs seen
        else x :: dedupAux rs (x.link :: seen) := rfl
    rcases List.mem_cons.mp hmem with rfl | hmem2
    · rw [hunfold, if_neg (by simpa using hseen)]
      exact List.mem_cons_self _ _
    · cases hx : seen.contains x.link with
      | true =>
        rw [hunfold, if_pos hx]
        exact ih seen r hmem2 (fun r2 h2 => huniq r2 (List.mem_cons_of_mem _ h2)) hseen
      | false =>
        rw [hunfold, if_neg (by simpa using hx)]
        by_cases hlink : x.link = r.link
        · have hxr : x = r := huniq x (List.mem_cons_self _ _) hlink
          subst hxr
          exact List.mem_cons_self _ _
        · refine List.mem_cons_of_mem _ ?_
          refine ih _ r hmem2 (fun r2 h2 => huniq r2 (List.mem_cons_of_mem _ h2)) ?_
          rw [List.contains_cons]
          have h1 : (r.link == x.link) = false := by
            simp only [beq_eq_false_iff_ne, ne_eq]
            exact fun he => hlink he.symm
          rw [h1, hseen]
          rfl

/-- C1 (amended): the final result sequence is deduplicated by the
exact link URL alone — not by a (site name, address) key: the first
row carrying each link, in source-iteration then within-source
discovery order, is kept, and the links of the output are pairwise
distinct. -/
theorem scrape_auctions_dedup_by_link (sites : List SiteSpec) :
    scrape_auctions sites = keepFirstByLink (joinedRows sites) ∧
    ((scrape_auctions sites).map Row.link).Nodup := by
  have he : scrape_auctions sites = dedupAux (joinedRows sites) [] := by
    unfold scrape_auctions dedupRows
    rw [foldl_append_eq_joined sites []]
    rfl
  constructor
  · have hfilter : (joinedRows sites).filter (fun r => !([] : List String).contains r.link) =
        joinedRows sites := by
      simp
    rw [he, dedupAux_eq_keepFirst, hfilter]
  · rw [he]
    exact (dedupAux_links_nodup (joinedRows sites) []).2

/-- Scenario for the C1 counterexample, part 1: one site page with two
relevant HTML links sharing the same title (and hence identical rows
apart from the link). -/
def envC1a : ScrapeEnv :=
  ⟨FetchOutcome.response 200 "https://www.alpha.gov/"
    [("Sheriff Sale Notice", "https://www.alpha.gov/sale1"),
     ("Sheriff Sale Notice", "https://www.alpha.gov/sale2")],
   fun _ _ => "", fun _ => none⟩

/-- The first row produced by `envC1a`. -/
def rowC1a : Row :=
  ⟨"Alpha County", "Sheriff Sale Notice", "https://www.alpha.gov/sale1",
   "", "", "", ""⟩

/-- Download oracle for the C1 counterexample, part 2: every download
succeeds. -/
def dlC1 : String → String → String := fun _ _ => "saved1.pdf"

/-- Parse oracle for the C1 counterexample, part 2: the document lists
the address "789 Pine Rd". -/
def ptC1 : String → Option (List String) := fun _ => some ["Address: 789 Pine Rd"]

/-- Site Alpha links the shared notice PDF. -/
def envC1b : ScrapeEnv :=
  ⟨FetchOutcome.response 200 "https://www.alpha.gov/"
    [("Sale Notice", "https://shared.example.gov/notice.pdf")], dlC1, ptC1⟩

/-- Site Beta links the same shared notice PDF. -/
def envC1c : ScrapeEnv :=
  ⟨FetchOutcome.response 200 "https://www.beta.gov/"
    [("Sale Notice", "https://shared.example.gov/notice.pdf")], dlC1, ptC1⟩

/-- Alpha's row for the shared PDF. -/
def rowC1b : Row :=
  ⟨"Alpha County", "Sale Notice", "https://shared.example.gov/notice.pdf",
   "", "", "Address: 789 Pine Rd", "saved1.pdf"⟩

/-- Beta's row for the shared PDF, identical apart from the site. -/
def rowC1c : Row :=
  ⟨"Beta County", "Sale Notice", "https://shared.example.gov/notice.pdf",
   "", "", "Address: 789 Pine Rd", "saved1.pdf"⟩

/-- C1, counterexample: the deduplication key is not the
case-insensitive (site name, address) pair.  Part 1: two records of
the same site that agree on every field — in particular on every
address-like field — and differ only in their link both survive, so no
(site, address) key was applied.  Part 2: two different sites discover
the same document URL carrying the address "789 Pine Rd"; Beta's
record (produced by its page scrape) is dropped from the final result,
so records from different sites are not both retained when their links
coincide. -/
theorem scrape_auctions_dedup_key_cex :
    scrape_auctions [⟨"Alpha County", "https://www.alpha.gov/", envC1a⟩] =
      [rowC1a, { rowC1a with link := "https://www.alpha.gov/sale2" }] ∧
    scrape_auctions
      [⟨"Alpha County", "https://www.alpha.gov/", envC1b⟩,
       ⟨"Beta County", "https://www.beta.gov/", envC1c⟩] = [rowC1b] ∧
    scrape_page envC1c "Beta County" "https://www.beta.gov/" = [rowC1c] ∧
    rowC1c.county ≠ rowC1b.county ∧
    lowerStr rowC1c.property_details = lowerStr rowC1b.property_details ∧
    rowC1c.property_details ≠ "" := by
  decide

/-! ## Claim C2 -/

/-- Scenario for C2: one site with a single relevant HTML link, whose
row therefore has every detail field empty. -/
def envC2 : ScrapeEnv :=
  ⟨FetchOutcome.response 200 "https://www.alpha.gov/"
    [("Sheriff Sale", "https://www.alpha.gov/sales")],
   fun _ _ => "", fun _ => none⟩

/-- The C2 scenario as a configured site. -/
def siteC2 : SiteSpec := ⟨"Alpha County", "https://www.alpha.gov/", envC2⟩

/-- The row the C2 scenario produces: no field carries an address. -/
def rowC2 : Row :=
  ⟨"Alpha County", "Sheriff Sale", "https://www.alpha.gov/sales",
   "", "", "", ""⟩

/-- C2, counterexample: the pipeline's records have no address field
at all, and a record whose every address-like field (property details,
date, location, local copy) is empty is present in the final output —
nothing discards records by field content. -/
theorem empty_fields_record_in_output_cex :
    scrape_auctions [siteC2] = [rowC2] ∧
    rowC2.auction_date = "" ∧ rowC2.auction_location = "" ∧
    rowC2.property_details = "" ∧ rowC2.local_pdf = "" := by
  decide

/-- C2 (amended): the pipeline never discards a record for having an
empty field: any record of the concatenated per-site results whose
link is carried by no other record — whatever its field contents,
including records with every detail field empty — appears in the final
output.  Only link-duplicate records are removed. -/
theorem scrape_auctions_keeps_unique_links (sites : List SiteSpec) (r : Row)
    (h1 : r ∈ joinedRows sites)
    (h2 : ∀ r2 ∈ joinedRows sites, r2.link = r.link → r2 = r) :
    r ∈ scrape_auctions sites := by
  have he : scrape_auctions sites = dedupAux (joinedRows sites) [] := by
    unfold scrape_auctions dedupRows
    rw [foldl_append_eq_joined sites []]
    rfl
  rw [he]
  exact dedupAux_mem_of_unique (joinedRows sites) [] r h1 h2 rfl

/-- C2 witness: the all-empty-fields record of the C2 scenario is kept
by the pipeline. -/
theorem scrape_auctions_keeps_unique_links_witness :
    rowC2 ∈ scrape_auctions [siteC2] :=
  scrape_auctions_keeps_unique_links [siteC2] rowC2 (by decide) (by decide)

/-! ## Claims C8 and C10: per-link processing -/

/-- `mkRow` preserves the identifying fields of the link. -/
theorem mkRow_base_fields (env : ScrapeEnv) (county title full : String) :
    (mkRow env county title full).county = county ∧
    (mkRow env county title full).title = title ∧
    (mkRow env county title full).link = full := by
  refine ⟨?_, ?_, ?_⟩ <;>
  · unfold mkRow
    dsimp only
    split
    · split <;> rfl
    · rfl

/-- For a non-`.pdf` link, or a `.pdf` link whose download failed, the
constructed row has every detail field empty. -/
theorem mkRow_details_empty (env : ScrapeEnv) (county title full : String)
    (h : strEndsWith (lowerStr full) ".pdf" = false ∨
         env.download full (county ++ " - " ++ title) = "") :
    (mkRow env county title full).auction_date = "" ∧
    (mkRow env county title full).auction_location = "" ∧
    (mkRow env county title full).property_details = "" ∧
    (mkRow env county title full).local_pdf = "" := by
  cases hp : strEndsWith (lowerStr full) ".pdf" with
  | false => simp [mkRow, hp]
  | true =>
    rcases h with h | h
    · rw [hp] at h
      simp at h
    · simp [mkRow, hp, h]

/-- Every row emitted by the anchor loop comes from a link that passed
the relevance filter and the same-site-or-document guard. -/
theorem mem_processLinks (env : ScrapeEnv) (county base : String) :
    ∀ (links seen : List (String × String)) (r : Row),
      r ∈ processLinks env county base links seen →
      ∃ t full, r = mkRow env county t full ∧
        looks_relevant t full = true ∧
        (same_site full base || strEndsWithAny (lowerStr full) DOC_EXT) = true := by
  intro links
  induction links with
  | nil => intro seen r h; simp [processLinks] at h
  | cons p rest ih =>
    intro seen r h
    obtain ⟨t0, full⟩ := p
    simp only [processLinks] at h
    generalize htitle : (if t0 = "" then "(no title)" else t0) = title at h
    split at h
    · exact ih _ r h
    · split at h
      case isTrue hguard =>
        rcases List.mem_cons.mp h with rfl | h2
        · exact ⟨title, full, rfl, (Bool.and_eq_true_iff.mp hguard).1,
            (Bool.and_eq_true_iff.mp hguard).2⟩
        · exact ih _ r h2
      case isFalse => exact ih _ r h

/-- A successful `scrape_page` response unfolds to the anchor loop. -/
theorem scrape_page_response_eq (env : ScrapeEnv) (county url : String)
    (status : Nat) (finalUrl : String) (links : List (String × String))
    (hf : env.fetch = FetchOutcome.response status finalUrl links) :
    scrape_page env county url =
      if 400 ≤ status then [] else processLinks env county finalUrl links [] := by
  unfold scrape_page
  rw [hf]

/-- C8: every record emitted by a successful page scrape comes from a
link whose host shares a suffix with the final page URL's host, or
whose URL ends in a document extension (document links are followed
cross-host). -/
theorem scrape_page_same_site_guard (env : ScrapeEnv) (county url : String)
    (status : Nat) (finalUrl : String) (links : List (String × String)) (r : Row)
    (hf : env.fetch = FetchOutcome.response status finalUrl links)
    (hr : r ∈ scrape_page env county url) :
    same_site r.link finalUrl = true ∨
    strEndsWithAny (lowerStr r.link) DOC_EXT = true := by
  rw [scrape_page_response_eq env county url status finalUrl links hf] at hr
  by_cases hs : 400 ≤ status
  · rw [if_pos hs] at hr
    simp at hr
  · rw [if_neg hs] at hr
    obtain ⟨t, full, hmk, _, hguard⟩ := mem_processLinks env county finalUrl _ _ r hr
    have hlink : r.link = full := by
      rw [hmk]
      exact (mkRow_base_fields env county t full).2.2
    rw [hlink]
    exact Bool.or_eq_true_iff.mp hguard

/-- Environment of the C8 witness: a cross-host document link. -/
def envC8 : ScrapeEnv :=
  ⟨FetchOutcome.response 200 "https://www.c8county.gov/"
    [("Notice", "https://other.example.gov/n.pdf")],
   fun _ _ => "", fun _ => none⟩

/-- C8 witness: a cross-host `.pdf` link accepted by the scrape
satisfies the guard through its document extension. -/
theorem scrape_page_same_site_guard_witness :
    same_site "https://other.example.gov/n.pdf" "https://www.c8county.gov/" = true ∨
    strEndsWithAny (lowerStr "https://other.example.gov/n.pdf") DOC_EXT = true :=
  scrape_page_same_site_guard envC8 "C8 County" "https://www.c8county.gov/"
    200 "https://www.c8county.gov/" [("Notice", "https://other.example.gov/n.pdf")]
    ⟨"C8 County", "Notice", "https://other.example.gov/n.pdf", "", "", "", ""⟩
    rfl (by decide)

/-- C10: a record of the per-site scrape whose link does not end in
`.pdf` (case-insensitively) — including `.doc`, `.docx` and HTML
links — or whose download failed, has an empty auction date, auction
location, property details and local copy path: detail extraction
happens only for successfully downloaded `.pdf` links. -/
theorem scrape_page_detail_fields_empty (env : ScrapeEnv) (county url : String) (r : Row)
    (hr : r ∈ scrape_page env county url)
    (h : strEndsWith (lowerStr r.link) ".pdf" = false ∨
         env.download r.link (county ++ " - " ++ r.title) = "") :
    r.auction_date = "" ∧ r.auction_location = "" ∧
    r.property_details = "" ∧ r.local_pdf = "" := by
  cases hf : env.fetch with
  | dnsFailure =>
    rw [show scrape_page env county url = [] from by unfold scrape_page; rw [hf]] at hr
    simp at hr
  | connectionError =>
    rw [show scrape_page env county url = [] from by unfold scrape_page; rw [hf]] at hr
    simp at hr
  | timeout =>
    rw [show scrape_page env county url = [] from by unfold scrape_page; rw [hf]] at hr
    simp at hr
  | otherError =>
    rw [show scrape_page env county url = [] from by unfold scrape_page; rw [hf]] at hr
    simp at hr
  | response status finalUrl links =>
    rw [scrape_page_response_eq env county url status finalUrl links hf] at hr
    by_cases hs : 400 ≤ status
    · rw [if_pos hs] at hr
      simp at hr
    · rw [if_neg hs] at hr
      obtain ⟨t, full, hmk, _, _⟩ := mem_processLinks env county finalUrl _ _ r hr
      have hbase := mkRow_base_fields env county t full
      have hlink : r.link = full := by rw [hmk]; exact hbase.2.2
      have htitle : r.title = t := by rw [hmk]; exact hbase.2.1
      rw [hmk]
      apply mkRow_details_empty
      rw [← hlink, ← htitle]
      exact h

/-- Environment of the C10 witness: one relevant HTML (non-document)
link. -/
def envC10 : ScrapeEnv :=
  ⟨FetchOutcome.response 200 "https://www.delta.gov/"
    [("Foreclosure Sales", "https://www.delta.gov/foreclosures")],
   fun _ _ => "", fun _ => none⟩

/-- The row the C10 scenario produces. -/
def rowC10 : Row :=
  ⟨"Delta County", "Foreclosure Sales", "https://www.delta.gov/foreclosures",
   "", "", "", ""⟩

/-- C10 witness: the record of an accepted HTML link has all four
detail fields empty. -/
theorem scrape_page_detail_fields_empty_witness :
    rowC10.auction_date = "" ∧ rowC10.auction_location = "" ∧
    rowC10.property_details = "" ∧ rowC10.local_pdf = "" :=
  scrape_page_detail_fields_empty envC10 "Delta County" "https://www.delta.gov/"
    rowC10 (by decide) (Or.inl (by decide))
